import Mathlib

/- Shallow embedding of the blog-automation publishing pipeline
   (blog_engine.py, utils.py, wordpress_client.py).  Python strings are
   modelled as `List Char`; each definition mirrors one Python operation
   or function of the source.  External collaborators (Google Sheets, the
   AI completion service, the WordPress XML-RPC endpoint, the filesystem)
   are modelled as explicit outcome environments. -/

namespace BlogAutomation

/-- Python whitespace test (for `str.strip` and the regex class `\s`),
restricted to the ASCII whitespace characters, the only ones relevant
in this development. -/
def isPySpace (c : Char) : Bool :=
  c == ' ' || c == '\t' || c == '\n' || c == '\r' || c == '\x0b' || c == '\x0c'

/-- Python `s.lstrip()` over ASCII whitespace. -/
def pyStripLeft (s : List Char) : List Char := s.dropWhile isPySpace

/-- Python `s.rstrip()` over ASCII whitespace. -/
def pyStripRight (s : List Char) : List Char := (s.reverse.dropWhile isPySpace).reverse

/-- Python `s.strip()`. -/
def pyStrip (s : List Char) : List Char := pyStripRight (pyStripLeft s)

/-- Python `s.strip(ch)` for a single-character argument (used by
`safe_filename`'s final `.strip('-')`). -/
def pyStripChar (ch : Char) (s : List Char) : List Char :=
  ((s.dropWhile (fun c => c == ch)).reverse.dropWhile (fun c => c == ch)).reverse

/-- Python `s.split(sep)` for a one-character separator, no maxsplit:
the empty string splits to one empty piece, separators at either end
produce empty pieces. -/
def pySplit (sep : Char) : List Char → List (List Char)
  | [] => [[]]
  | c :: cs =>
    let r := pySplit sep cs
    if c == sep then [] :: r
    else
      match r with
      | [] => [[c]]
      | h :: t => (c :: h) :: t

/-- Everything before the first occurrence of `sep`, and the remainder
after it (`none` when `sep` does not occur); helper for Python `split`
with a maxsplit argument. -/
def pySplitFirst (sep : Char) : List Char → List Char × Option (List Char)
  | [] => ([], none)
  | c :: cs =>
    if c == sep then ([], some cs)
    else
      let r := pySplitFirst sep cs
      (c :: r.1, r.2)

/-- Python `s.split(sep, maxsplit)` for a one-character separator. -/
def pySplitN (sep : Char) : Nat → List Char → List (List Char)
  | 0, s => [s]
  | Nat.succ n, s =>
    match pySplitFirst sep s with
    | (a, none) => [a]
    | (a, some rest) => a :: pySplitN sep n rest

/-- Python `s.split('\n\n')`, the paragraph split in
`_simple_markdown_to_html` (non-overlapping occurrences, left to right). -/
def pySplitPara : List Char → List (List Char)
  | [] => [[]]
  | '\n' :: '\n' :: rest => [] :: pySplitPara rest
  | c :: cs =>
    match pySplitPara cs with
    | [] => [[c]]
    | h :: t => (c :: h) :: t

/-- Everything before the first occurrence of the three-character
separator of Python `s.split('---', ...)`, with the remainder. -/
def pySplitFirstDashes : List Char → List Char × Option (List Char)
  | '-' :: '-' :: '-' :: rest => ([], some rest)
  | c :: cs =>
    let r := pySplitFirstDashes cs
    (c :: r.1, r.2)
  | [] => ([], none)

/-- Python `s.split('---', 2)`, used by the YAML front-matter stripping in
`_markdown_to_html` and `_simple_markdown_to_html`. -/
def pySplitDashes2 (s : List Char) : List (List Char) :=
  match pySplitFirstDashes s with
  | (a, none) => [a]
  | (a, some r1) =>
    match pySplitFirstDashes r1 with
    | (b, none) => [a, b]
    | (b, some r2) => [a, b, r2]

/-- The literal tag checked by `_extract_meta_description`. -/
def METATAG : List Char := "META_DESCRIPTION:".toList

/-- Fuel-indexed engine of Python `s.replace('META_DESCRIPTION:', '')`:
remove each leftmost occurrence of the tag and continue scanning after
it.  With fuel at least `s.length` (as in `replaceMetaTag`) this is
exactly Python's `str.replace` with an empty replacement. -/
def pyReplaceTagAux : Nat → List Char → List Char
  | _, [] => []
  | 0, s => s
  | Nat.succ n, c :: cs =>
    if METATAG.isPrefixOf (c :: cs) then pyReplaceTagAux n ((c :: cs).drop METATAG.length)
    else c :: pyReplaceTagAux n cs

/-- Python `s.replace('META_DESCRIPTION:', '')`. -/
def replaceMetaTag (s : List Char) : List Char := pyReplaceTagAux s.length s

/-- The condition of the loop in the fallback branch of
`_extract_meta_description`: a line whose `strip()` is non-empty and
which does not itself start with the heading marker. -/
def firstParagraphPred (l : List Char) : Bool :=
  !(pyStrip l).isEmpty && !(['#'].isPrefixOf l)

/-- The `first_paragraph` variable of `_extract_meta_description`: the
first qualifying line, already stripped; the empty string when no line
qualifies. -/
def firstParagraph (ls : List (List Char)) : List Char :=
  match ls.find? firstParagraphPred with
  | some l => pyStrip l
  | none => []

/-- The fallback branch of `_extract_meta_description` (input without the
leading tag, or tagged input with a single newline-delimited segment):
the first paragraph truncated to 157 characters with an appended
ellipsis when longer, and the whole untouched input as the body. -/
def extractFallback (content : List Char) : List Char × List Char :=
  (if 157 < (firstParagraph (pySplit '\n' content)).length
   then (firstParagraph (pySplit '\n' content)).take 157 ++ "...".toList
   else firstParagraph (pySplit '\n' content),
   content)

/-- `BlogEngine._extract_meta_description`, returning the pair
(meta_description, clean_content). -/
def extract_meta_description (content : List Char) : List Char × List Char :=
  if METATAG.isPrefixOf content then
    let lines := pySplitN '\n' 2 content
    if 2 ≤ lines.length then
      (pyStrip (replaceMetaTag lines.headI),
       pyStrip (List.intercalate ['\n'] (lines.drop 1)))
    else extractFallback content
  else extractFallback content

/-- The character class of the regex `[^a-zA-Z0-9\\s-]` in
`_save_blog_post` (the source has a doubled backslash inside a raw
string, so the class keeps a literal backslash and the letter s, not
whitespace). -/
def saveSlugKeep (c : Char) : Bool :=
  decide (('a' ≤ c ∧ c ≤ 'z') ∨ ('A' ≤ c ∧ c ≤ 'Z') ∨ ('0' ≤ c ∧ c ≤ '9')
    ∨ c = '\\' ∨ c = 's' ∨ c = '-')

/-- Scanner state for the substitution `re.sub(r'\\s+', '-', ...)` of
`_save_blog_post`: because of the doubled backslash the pattern is a
literal backslash followed by a greedy run of the letter s (never
whitespace).  `pending` means a backslash has been read but not yet
emitted; `eating` means the scan sits inside the greedy letter-s run of
a match already replaced by a hyphen. -/
inductive SubState where
  | normal : SubState
  | eating : SubState
  | pending : SubState

/-- One-character-at-a-time scanner equivalent to the left-to-right,
non-overlapping substitution of the pattern above by a single hyphen. -/
def subBackslashSAux : SubState → List Char → List Char
  | .pending, [] => ['\\']
  | _, [] => []
  | .normal, c :: cs =>
    if c == '\\' then subBackslashSAux .pending cs
    else c :: subBackslashSAux .normal cs
  | .eating, c :: cs =>
    if c == 's' then subBackslashSAux .eating cs
    else if c == '\\' then subBackslashSAux .pending cs
    else c :: subBackslashSAux .normal cs
  | .pending, c :: cs =>
    if c == 's' then '-' :: subBackslashSAux .eating cs
    else if c == '\\' then '\\' :: subBackslashSAux .pending cs
    else '\\' :: (c :: subBackslashSAux .normal cs)

/-- The filename slug computed inline by `_save_blog_post`: remove the
characters outside the class, `strip()`, substitute, `.lower()[:50]`. -/
def saveSlug (title : List Char) : List Char :=
  ((subBackslashSAux .normal (pyStrip (title.filter saveSlugKeep))).map Char.toLower).take 50

/-- The filename built by `_save_blog_post` from the timestamp and the
slug. -/
def save_blog_post_filename (timestamp title : List Char) : List Char :=
  timestamp ++ '_' :: (saveSlug title ++ ".md".toList)

/-- Python rendering of a bool inside an f-string. -/
def pyBoolStr (b : Bool) : List Char := if b then "True".toList else "False".toList

/-- A topic row as loaded by `_load_sheet_data` (row number kept in its
serialized form, since it is only interpolated into text). -/
structure TopicData where
  row_number : List Char
  primary_keywords : List Char
  auxiliary_keywords : List Char
  title : List Char

/-- The front-matter block (the `metadata` f-string of `_save_blog_post`),
ending with the closing delimiter and the separating blank line. -/
def blogMetadata (t : TopicData) (meta_description dateStr : List Char)
    (wordpress_enabled : Bool) : List Char :=
  "---\ntitle: \"".toList ++ t.title
    ++ "\"\nmeta_description: \"".toList ++ meta_description
    ++ "\"\ndate: ".toList ++ dateStr
    ++ "\nprimary_keywords: \"".toList ++ t.primary_keywords
    ++ "\"\nauxiliary_keywords: \"".toList ++ t.auxiliary_keywords
    ++ "\"\nrow_number: ".toList ++ t.row_number
    ++ "\ngenerated_by: \"Blog Writing Agent v2.0\"\nwordpress_enabled: ".toList
    ++ pyBoolStr wordpress_enabled
    ++ "\n---\n\n".toList

/-- The `full_content = metadata + content` written to the file by
`_save_blog_post`. -/
def save_blog_post_content (t : TopicData) (content meta_description dateStr : List Char)
    (wordpress_enabled : Bool) : List Char :=
  blogMetadata t meta_description dateStr wordpress_enabled ++ content

/-- The character class of `safe_filename`'s regex in utils.py (single
backslash there: alphanumeric, whitespace, hyphen are kept). -/
def safeFilenameKeep (c : Char) : Bool :=
  decide (('a' ≤ c ∧ c ≤ 'z') ∨ ('A' ≤ c ∧ c ≤ 'Z') ∨ ('0' ≤ c ∧ c ≤ '9')
    ∨ isPySpace c = true ∨ c = '-')

/-- The substitution of whitespace runs by single hyphens in
`safe_filename`; the flag records being inside a run already replaced. -/
def subWhitespaceAux : Bool → List Char → List Char
  | _, [] => []
  | eating, c :: cs =>
    if isPySpace c then
      if eating then subWhitespaceAux true cs else '-' :: subWhitespaceAux true cs
    else c :: subWhitespaceAux false cs

/-- `utils.safe_filename(text, max_length)`. -/
def safe_filename (text : List Char) (max_length : Nat) : List Char :=
  pyStripChar '-'
    (((subWhitespaceAux false (pyStrip (text.filter safeFilenameKeep))).map Char.toLower).take
      max_length)

/-- One line under the MULTILINE substitution of h3 headers in
`_simple_markdown_to_html` (the dot of the pattern requires at least one
character after the marker). -/
def subH3Line (l : List Char) : List Char :=
  if "### ".toList.isPrefixOf l && !(l.drop 4).isEmpty then
    "<h3>".toList ++ (l.drop 4 ++ "</h3>".toList)
  else l

/-- One line under the MULTILINE substitution of h2 headers. -/
def subH2Line (l : List Char) : List Char :=
  if "## ".toList.isPrefixOf l && !(l.drop 3).isEmpty then
    "<h2>".toList ++ (l.drop 3 ++ "</h2>".toList)
  else l

/-- One line under the MULTILINE substitution of h1 headers. -/
def subH1Line (l : List Char) : List Char :=
  if "# ".toList.isPrefixOf l && !(l.drop 2).isEmpty then
    "<h1>".toList ++ (l.drop 2 ++ "</h1>".toList)
  else l

/-- Apply a whole-line substitution in MULTILINE mode: the anchored
pattern can only rewrite complete lines. -/
def applyLineSub (f : List Char → List Char) (s : List Char) : List Char :=
  List.intercalate ['\n'] ((pySplit '\n' s).map f)

/-- Locate the closing double star of the non-greedy bold pattern: split
off the shortest non-empty newline-free content followed by two stars. -/
def findBoldClose : List Char → Option (List Char × List Char)
  | [] => none
  | c :: cs =>
    if c == '\n' then none
    else
      match cs with
      | '*' :: '*' :: cs2 => some ([c], cs2)
      | _ =>
        match findBoldClose cs with
        | some (content, rest) => some (c :: content, rest)
        | none => none

/-- Fuel-indexed engine of the bold substitution of
`_simple_markdown_to_html`; with fuel at least the length of the input
(as in `subBold`) it is exactly the regex substitution. -/
def subBoldFuel : Nat → List Char → List Char
  | _, [] => []
  | 0, s => s
  | Nat.succ n, '*' :: '*' :: rest =>
    (match findBoldClose rest with
     | some (content, rest2) =>
       "<strong>".toList ++ (content ++ ("</strong>".toList ++ subBoldFuel n rest2))
     | none => '*' :: subBoldFuel n ('*' :: rest))
  | Nat.succ n, c :: cs => c :: subBoldFuel n cs

/-- The bold substitution of `_simple_markdown_to_html`. -/
def subBold (s : List Char) : List Char := subBoldFuel s.length s

/-- Locate the closing star of the non-greedy italic pattern. -/
def findItalicClose : List Char → Option (List Char × List Char)
  | [] => none
  | c :: cs =>
    if c == '\n' then none
    else
      match cs with
      | '*' :: cs2 => some ([c], cs2)
      | _ =>
        match findItalicClose cs with
        | some (content, rest) => some (c :: content, rest)
        | none => none

/-- Fuel-indexed engine of the italic substitution. -/
def subItalicFuel : Nat → List Char → List Char
  | _, [] => []
  | 0, s => s
  | Nat.succ n, '*' :: rest =>
    (match findItalicClose rest with
     | some (content, rest2) =>
       "<em>".toList ++ (content ++ ("</em>".toList ++ subItalicFuel n rest2))
     | none => '*' :: subItalicFuel n rest)
  | Nat.succ n, c :: cs => c :: subItalicFuel n cs

/-- The italic substitution of `_simple_markdown_to_html`. -/
def subItalic (s : List Char) : List Char := subItalicFuel s.length s

/-- The YAML front-matter stripping at the top of `_markdown_to_html`
and `_simple_markdown_to_html`: with three parts from the maxsplit-2
split, keep the stripped third part, otherwise leave the input alone. -/
def stripFrontmatter (mc : List Char) : List Char :=
  if "---".toList.isPrefixOf mc then
    match pySplitDashes2 mc with
    | [_, _, c] => pyStrip c
    | _ => mc
  else mc

/-- The paragraph loop of `_simple_markdown_to_html`.  The branch for a
plain paragraph builds the paragraph-tag-wrapped text but the source
never appends it to html_paragraphs; only paragraphs already starting
with an angle bracket survive. -/
def simpleParaKeep (para : List Char) : Option (List Char) :=
  let p := pyStrip para
  if !p.isEmpty && !("<".toList.isPrefixOf p) then none
  else if !p.isEmpty then some p
  else none

/-- `BlogEngine._simple_markdown_to_html`: front-matter strip, the three
header substitutions, bold, italic, then the paragraph pass. -/
def simple_markdown_to_html (markdown_content : List Char) : List Char :=
  let mc := stripFrontmatter markdown_content
  let headed := applyLineSub subH1Line (applyLineSub subH2Line (applyLineSub subH3Line mc))
  let styled := subItalic (subBold headed)
  List.intercalate ['\n'] ((pySplitPara styled).filterMap simpleParaKeep)

/-- The mutable flags of `BlogEngine` relevant to publishing. -/
structure EngineState where
  wordpress_enabled : Bool
  hasWpClient : Bool
  wp_status : List Char

/-- Outcomes of the external collaborators during one run: WordPress
client construction, the connectivity probe, the AI completion call per
topic, the markdown file write, and the remote create-post call.
An `.error` value is an exception raised by the collaborator. -/
structure BatchEnv where
  wpInit : Except (List Char) Unit
  testConnection : Bool
  genResult : TopicData → Except (List Char) (List Char)
  saveResult : TopicData → List Char → List Char → Except (List Char) (List Char)
  createPost : TopicData → List Char → List Char → Except (List Char) Nat

/-- `BlogEngine._init_wordpress_client`: a failed construction or a failed
probe disables publishing for the rest of the run; the engine keeps
running in markdown-only mode. -/
def init_wordpress_client (env : BatchEnv) (st : EngineState) : EngineState :=
  match env.wpInit with
  | .error _ => ⟨false, st.hasWpClient, st.wp_status⟩
  | .ok _ =>
    if env.testConnection then ⟨st.wordpress_enabled, true, st.wp_status⟩
    else ⟨false, true, st.wp_status⟩

/-- `BlogEngine._publish_to_wordpress`: returns `none` when publishing is
disabled or the client is missing, and catches any create-post exception
into `none`; it never raises. -/
def publish_to_wordpress (env : BatchEnv) (st : EngineState) (t : TopicData)
    (content meta_description : List Char) : Option Nat :=
  if !st.wordpress_enabled || !st.hasWpClient then none
  else
    match env.createPost t content meta_description with
    | .ok postId => some postId
    | .error _ => none

/-- Python truthiness of the returned post id. -/
def pyTruthyId : Option Nat → Bool
  | none => false
  | some n => !(n == 0)

/-- The per-topic pipeline Generate, Parse, Write, then publish when
enabled; shared by `generate_blog_post` and the loop body of
`generate_all_blog_posts`.  `.error` is an exception escaping a stage
(only generation and the file write can raise). -/
def processTopic (env : BatchEnv) (st : EngineState) (t : TopicData) :
    Except (List Char) (List Char × Option Nat) :=
  match env.genResult t with
  | .error e => .error e
  | .ok ai =>
    match env.saveResult t (extract_meta_description ai).2 (extract_meta_description ai).1 with
    | .error e => .error e
    | .ok filename =>
      .ok (filename,
        if st.wordpress_enabled
        then publish_to_wordpress env st t (extract_meta_description ai).2
               (extract_meta_description ai).1
        else none)

/-- Whether a topic's outcome completed without exception. -/
def resultOk : Except (List Char) (List Char × Option Nat) → Bool
  | .ok _ => true
  | .error _ => false

/-- Number of markdown files (PostArtifacts) a topic's outcome wrote. -/
def artifactCount : Except (List Char) (List Char × Option Nat) → Nat
  | .ok _ => 1
  | .error _ => 0

/-- Number of remote post ids (RemotePostReferences) an outcome carries. -/
def remoteRefCount : Except (List Char) (List Char × Option Nat) → Nat
  | .ok (_, some _) => 1
  | .ok (_, none) => 0
  | .error _ => 0

/-- Whether the loop of `generate_all_blog_posts` counts this topic as
published (the id must be truthy in Python). -/
def publishCounted (env : BatchEnv) (st : EngineState) (t : TopicData) : Bool :=
  match processTopic env st t with
  | .ok (_, wpId) => pyTruthyId wpId
  | .error _ => false

/-- The counters and the per-topic outcomes of one batch run. -/
structure BatchResult where
  generated : Nat
  published : Nat
  outcomes : List (Except (List Char) (List Char × Option Nat))

/-- `BlogEngine.generate_all_blog_posts`: the per-topic exception
boundary of the loop catches any stage's exception, leaves both counters
unchanged for that topic and continues with the next one. -/
def generate_all_blog_posts (env : BatchEnv) (st : EngineState) :
    List TopicData → BatchResult
  | [] => ⟨0, 0, []⟩
  | t :: ts =>
    let o := processTopic env st t
    let r := generate_all_blog_posts env st ts
    ⟨(if resultOk o then 1 else 0) + r.generated,
     (if publishCounted env st t then 1 else 0) + r.published,
     o :: r.outcomes⟩

/-- `BlogEngine.generate_blog_post` (single-topic mode): row lookup, then
the shared pipeline; `none` when the row is not found (no file written). -/
def generate_blog_post (env : BatchEnv) (st : EngineState)
    (sheet_data : List TopicData) (row : List Char) :
    Option (Except (List Char) (List Char × Option Nat)) :=
  match sheet_data.find? (fun t => t.row_number == row) with
  | none => none
  | some t => some (processTopic env st t)

/- Concrete run fixtures used to instantiate the batch and single-run
theorems on explicit inputs. -/

/-- A well-formed AI response used by the run fixtures. -/
def sampleAi : List Char := "META_DESCRIPTION: desc\n\nBody.".toList

def topicA1 : TopicData := ⟨"1".toList, "k1".toList, "x1".toList, "T1".toList⟩

def topicA2 : TopicData := ⟨"2".toList, "k2".toList, "x2".toList, "T2".toList⟩

def topicA3 : TopicData := ⟨"3".toList, "k3".toList, "x3".toList, "T3".toList⟩

/-- Engine flags of a markdown-only run. -/
def stA : EngineState := ⟨false, false, "draft".toList⟩

/-- Collaborator outcomes where generation raises for row 2 only. -/
def envA : BatchEnv :=
  ⟨Except.ok (), true,
   fun t => if t.row_number == "2".toList
            then Except.error ("AI generation failed: boom".toList)
            else Except.ok sampleAi,
   fun _ _ _ => Except.ok ("blog_posts/t.md".toList),
   fun _ _ _ => Except.error ("no wordpress".toList)⟩

/-- Engine flags of a run with publishing enabled and a client present. -/
def stB : EngineState := ⟨true, true, "draft".toList⟩

/-- Collaborator outcomes where the markdown write raises for row 1 only. -/
def envB : BatchEnv :=
  ⟨Except.ok (), true,
   fun _ => Except.ok sampleAi,
   fun t _ _ => if t.row_number == "1".toList
                then Except.error ("Failed to save markdown file: disk full".toList)
                else Except.ok ("blog_posts/t.md".toList),
   fun _ _ _ => Except.ok 7⟩

/-- Engine flags of a run that requested publishing (before initialization). -/
def stP : EngineState := ⟨true, false, "draft".toList⟩

/-- Collaborator outcomes where the client constructs but the probe fails;
the remote create-post call would succeed if it were ever made. -/
def envP : BatchEnv :=
  ⟨Except.ok (), false,
   fun _ => Except.ok sampleAi,
   fun _ _ _ => Except.ok ("blog_posts/p.md".toList),
   fun _ _ _ => Except.ok 42⟩

def topicP : TopicData := ⟨"1".toList, "kp".toList, "xp".toList, "TP".toList⟩

/- Helper lemmas about the embedded Python string operations. -/

theorem dropWhile_eq_self_of_all (p : Char → Bool) (l : List Char)
    (h : ∀ c ∈ l, p c = false) : l.dropWhile p = l := by
  cases l with
  | nil => rfl
  | cons c cs =>
    rw [List.dropWhile_cons, h c (List.mem_cons_self c cs)]
    simp

theorem pyStrip_eq_self {l : List Char} (h : ∀ c ∈ l, isPySpace c = false) :
    pyStrip l = l := by
  unfold pyStrip pyStripLeft pyStripRight
  rw [dropWhile_eq_self_of_all _ _ h]
  rw [dropWhile_eq_self_of_all _ _ (fun c hc => h c (List.mem_reverse.mp hc))]
  exact List.reverse_reverse l

theorem pyStrip_cons_space (X : List Char) : pyStrip (' ' :: X) = pyStrip X := by
  unfold pyStrip pyStripLeft
  rw [List.dropWhile_cons]
  norm_num [isPySpace]

theorem pyStrip_cons_newline (X : List Char) : pyStrip ('\n' :: X) = pyStrip X := by
  unfold pyStrip pyStripLeft
  rw [List.dropWhile_cons]
  norm_num [isPySpace]

theorem pySplitFirst_no_sep {sep : Char} {l : List Char} (h : sep ∉ l) :
    pySplitFirst sep l = (l, none) := by
  induction l with
  | nil => rfl
  | cons c cs ih =>
    have hc : ¬ (c == sep) = true := by
      simp only [beq_iff_eq]
      intro hcc
      exact h (hcc ▸ List.mem_cons_self c cs)
    have hcs : sep ∉ cs := fun hm => h (List.mem_cons_of_mem c hm)
    unfold pySplitFirst
    rw [if_neg hc, ih hcs]

theorem pySplitFirst_append {sep : Char} {l r : List Char} (h : sep ∉ l) :
    pySplitFirst sep (l ++ sep :: r) = (l, some r) := by
  induction l with
  | nil =>
    unfold pySplitFirst
    simp
  | cons c cs ih =>
    have hc : ¬ (c == sep) = true := by
      simp only [beq_iff_eq]
      intro hcc
      exact h (hcc ▸ List.mem_cons_self c cs)
    have hcs : sep ∉ cs := fun hm => h (List.mem_cons_of_mem c hm)
    rw [List.cons_append]
    unfold pySplitFirst
    rw [if_neg hc, ih hcs]

theorem pySplitN_succ (sep : Char) (n : Nat) (s : List Char) :
    pySplitN sep (n + 1) s
      = (match pySplitFirst sep s with
         | (a, none) => [a]
         | (a, some rest) => a :: pySplitN sep n rest) := rfl

theorem pyReplaceTagAux_cons (n : Nat) (c : Char) (cs : List Char) :
    pyReplaceTagAux (n + 1) (c :: cs)
      = if METATAG.isPrefixOf (c :: cs)
        then pyReplaceTagAux n ((c :: cs).drop METATAG.length)
        else c :: pyReplaceTagAux n cs := rfl

theorem pyReplaceTagAux_no_occ :
    ∀ (n : Nat) (s : List Char), s.length ≤ n → ¬ METATAG <:+: s →
      pyReplaceTagAux n s = s := by
  intro n
  induction n with
  | zero =>
    intro s hs _
    have : s = [] := List.length_eq_zero.mp (Nat.le_zero.mp hs)
    subst this
    rfl
  | succ n ih =>
    intro s hs hocc
    cases s with
    | nil => rfl
    | cons c cs =>
      rw [pyReplaceTagAux_cons]
      have hp : METATAG.isPrefixOf (c :: cs) = false := by
        cases hb : METATAG.isPrefixOf (c :: cs)
        · rfl
        · exact absurd (List.IsPrefix.isInfix (List.isPrefixOf_iff_prefix.mp hb)) hocc
      rw [hp]
      simp only [Bool.false_eq_true, if_false]
      have hlen : cs.length ≤ n := by
        simp only [List.length_cons] at hs
        omega
      rw [ih cs hlen (fun hi => hocc (List.infix_cons hi))]

theorem replaceMetaTag_append (t : List Char) (h : ¬ METATAG <:+: t) :
    replaceMetaTag (METATAG ++ t) = t := by
  unfold replaceMetaTag
  have hm : METATAG.length = 17 := by decide
  have hlen : (METATAG ++ t).length = (16 + t.length) + 1 := by
    rw [List.length_append, hm]
    omega
  rw [hlen]
  have hcons : METATAG ++ t = 'M' :: ("ETA_DESCRIPTION:".toList ++ t) := rfl
  rw [hcons, pyReplaceTagAux_cons]
  have hpre : METATAG.isPrefixOf ('M' :: ("ETA_DESCRIPTION:".toList ++ t)) = true := by
    rw [← hcons]
    exact List.isPrefixOf_iff_prefix.mpr (List.prefix_append METATAG t)
  rw [hpre]
  simp only [if_true]
  rw [← hcons, hm, List.drop_left' (by rw [hm])]
  exact pyReplaceTagAux_no_occ (16 + t.length) t (by omega) h

theorem metatag_not_infix_space_cons {X : List Char} (h : ¬ METATAG <:+: X) :
    ¬ METATAG <:+: (' ' :: X) := by
  intro hinf
  rcases hinf with ⟨s, u, hsu⟩
  cases s with
  | nil =>
    rw [List.nil_append] at hsu
    have hmeta : METATAG ++ u = 'M' :: ("ETA_DESCRIPTION:".toList ++ u) := rfl
    rw [hmeta] at hsu
    injection hsu with h1 _
    exact absurd h1 (by decide)
  | cons a s' =>
    rw [List.cons_append, List.cons_append] at hsu
    injection hsu with _ h2
    exact h ⟨s', u, h2⟩

/- Claim theorems. -/

/-- Claim C1: the spec says the write operation's filename for the title
"Hello, World! 2025" ends in the slug hello-world-2025; but the inline
regexes of `_save_blog_post` carry a doubled backslash inside raw
strings, so the code deletes the spaces instead of hyphenating them and
produces the slug helloworld2025.  The repository's own `safe_filename`
utility (with the intended single-backslash regexes) yields exactly the
slug the spec describes, confirming that the spec states the intent and
the inline code is the slip. -/
theorem save_filename_hello_world_divergence :
    save_blog_post_filename "20250101_000000".toList "Hello, World! 2025".toList
        = "20250101_000000_helloworld2025.md".toList ∧
      safe_filename "Hello, World! 2025".toList 50 = "hello-world-2025".toList ∧
      saveSlug "Hello, World! 2025".toList ≠ "hello-world-2025".toList := by
  refine ⟨rfl, rfl, ?_⟩
  decide

/-- Claim C2: the spec says the fallback conversion returns a non-empty
string on plain text with no markdown markup; but the paragraph loop of
`_simple_markdown_to_html` builds the wrapped paragraph and never
appends it to the output list, so every plain-text paragraph is dropped
and the function returns the empty string. -/
theorem simple_markdown_plain_text_empty :
    simple_markdown_to_html
        "Just plain text with no markup.\n\nSecond paragraph.".toList = [] := by
  rfl

theorem intercalate_newline_pair (b : List Char) :
    List.intercalate ['\n'] ([] :: [b]) = '\n' :: b := by
  simp [List.intercalate, List.intersperse]

/-- Claim C3: the response parser is total by construction in this
embedding; the empty string parses to an empty meta description and an
empty body, and a tagged input with fewer than two newline-delimited
segments falls through to the fallback branch, whose body is the whole
untrimmed input. -/
theorem extract_meta_description_total_edge :
    extract_meta_description [] = ([], []) ∧
      ∀ content : List Char, METATAG.isPrefixOf content = true →
        (pySplitN '\n' 2 content).length < 2 →
        (extract_meta_description content).2 = content := by
  constructor
  · rfl
  · intro content hpre hlen
    unfold extract_meta_description
    rw [if_pos hpre, if_neg (by omega)]
    rfl

theorem extract_meta_description_total_edge_witness :
    (extract_meta_description "META_DESCRIPTION: test".toList).2
      = "META_DESCRIPTION: test".toList :=
  extract_meta_description_total_edge.2 "META_DESCRIPTION: test".toList
    (by decide) (by decide)

/-- Claim C7 counterexample: the parser trims the remainder, so a body
with a trailing space is not returned exactly; the input below has the
claim's exact form with X the string x and BODY the two-character string
consisting of b and a space, yet the returned body is b alone. -/
theorem extract_meta_trims_body_counterexample :
    extract_meta_description "META_DESCRIPTION: x\n\nb ".toList
        = ("x".toList, "b".toList) ∧
      ("b".toList : List Char) ≠ "b ".toList := by
  refine ⟨rfl, ?_⟩
  decide

/-- Claim C7 as amended: for a single-line X that is already trimmed and
does not contain the tag, and an already-trimmed BODY, parsing the exact
tagged form returns the pair (X, BODY): the first line with the tag
stripped and trimmed is the meta description and the trimmed remainder
is the body. -/
theorem extract_meta_tagged_exact (X BODY : List Char)
    (hXnl : '\n' ∉ X) (hXs : pyStrip X = X)
    (hXtag : ¬ METATAG <:+: X) (hBs : pyStrip BODY = BODY) :
    extract_meta_description (METATAG ++ ' ' :: X ++ '\n' :: '\n' :: BODY)
      = (X, BODY) := by
  have hnosep : '\n' ∉ METATAG ++ ' ' :: X := by
    intro hm
    rcases List.mem_append.mp hm with h | h
    · exact absurd h (by decide)
    · rcases List.mem_cons.mp h with h' | h'
      · exact absurd h' (by decide)
      · exact hXnl h'
  have hcontent : METATAG ++ ' ' :: X ++ '\n' :: '\n' :: BODY
      = (METATAG ++ ' ' :: X) ++ '\n' :: ('\n' :: BODY) := by
    simp [List.append_assoc]
  have hsplit : pySplitN '\n' 2 (METATAG ++ ' ' :: X ++ '\n' :: '\n' :: BODY)
      = [METATAG ++ ' ' :: X, [], BODY] := by
    rw [hcontent]
    rw [show (2 : Nat) = 1 + 1 from rfl, pySplitN_succ]
    rw [pySplitFirst_append hnosep]
    show (METATAG ++ ' ' :: X) :: pySplitN '\n' 1 ('\n' :: BODY) = _
    rw [show (1 : Nat) = 0 + 1 from rfl, pySplitN_succ]
    have h2 : pySplitFirst '\n' ('\n' :: BODY) = ([], some BODY) := by
      unfold pySplitFirst
      simp
    rw [h2]
    rfl
  have hpre : METATAG.isPrefixOf (METATAG ++ ' ' :: X ++ '\n' :: '\n' :: BODY) = true :=
    List.isPrefixOf_iff_prefix.mpr ⟨' ' :: X ++ '\n' :: '\n' :: BODY, rfl⟩
  unfold extract_meta_description
  rw [if_pos hpre]
  simp only [hsplit]
  rw [if_pos (by simp)]
  simp only [List.headI, List.drop_succ_cons, List.drop_zero]
  rw [replaceMetaTag_append (' ' :: X) (metatag_not_infix_space_cons hXtag)]
  rw [pyStrip_cons_space, hXs]
  rw [intercalate_newline_pair, pyStrip_cons_newline, hBs]

theorem extract_meta_tagged_exact_witness :
    extract_meta_description
        (METATAG ++ ' ' :: "Great post".toList ++ '\n' :: '\n' :: "Body text.".toList)
      = ("Great post".toList, "Body text.".toList) :=
  extract_meta_tagged_exact "Great post".toList "Body text.".toList
    (by decide) (by decide) (by decide) (by decide)

/-- Claim C9: the file content assembled by the write operation is the
front-matter block followed by the untouched body; the body appears
byte-for-byte immediately after the closing front-matter delimiter and
its separating blank line. -/
theorem append_newline_regroup (a c : List Char) :
    a ++ "\n---\n\n".toList ++ c = (a ++ ['\n']) ++ ("---\n\n".toList ++ c) := by
  rw [List.append_assoc]
  rw [List.append_assoc]
  rfl

theorem save_blog_post_roundtrip (t : TopicData)
    (content meta_description dateStr : List Char) (we : Bool) :
    ∃ pre : List Char,
      save_blog_post_content t content meta_description dateStr we
        = pre ++ ("---\n\n".toList ++ content) :=
  ⟨_, append_newline_regroup _ content⟩

/-- Claim C8 counterexample: for the input consisting of two spaces and
hi, the parser's fallback strips the selected line, so the returned meta
description hi is not a prefix of the first non-blank, non-heading line
(which still carries its leading spaces). -/
theorem fallback_meta_not_prefix_of_line :
    extract_meta_description "  hi".toList = ("hi".toList, "  hi".toList) ∧
      (pySplit '\n' "  hi".toList).find? firstParagraphPred = some "  hi".toList ∧
      ¬ ("hi".toList <+: "  hi".toList) := by
  refine ⟨rfl, rfl, ?_⟩
  decide

/-- Claim C8 as amended: without the tag, the body is the unchanged
input; the meta description is the stripped first non-blank line not
starting with a heading marker when that is at most 157 characters, and
otherwise its first 157 characters with an appended ellipsis; it never
exceeds 160 characters and its first 157 characters are a prefix of the
stripped line. -/
theorem fallback_meta_spec (content : List Char)
    (h : METATAG.isPrefixOf content = false) :
    (extract_meta_description content).2 = content ∧
      (extract_meta_description content).1.length ≤ 160 ∧
      ((extract_meta_description content).1).take 157
          <+: firstParagraph (pySplit '\n' content) ∧
      ((firstParagraph (pySplit '\n' content)).length ≤ 157 →
        (extract_meta_description content).1 = firstParagraph (pySplit '\n' content)) ∧
      (157 < (firstParagraph (pySplit '\n' content)).length →
        (extract_meta_description content).1
          = (firstParagraph (pySplit '\n' content)).take 157 ++ "...".toList) := by
  have hext : extract_meta_description content = extractFallback content := by
    unfold extract_meta_description
    simp [h]
  rw [hext]
  by_cases hlen : 157 < (firstParagraph (pySplit '\n' content)).length
  · have hm : (extractFallback content).1
        = (firstParagraph (pySplit '\n' content)).take 157 ++ "...".toList := by
      unfold extractFallback
      rw [if_pos hlen]
    refine ⟨rfl, ?_, ?_, ?_, fun _ => hm⟩
    · rw [hm, List.length_append, List.length_take]
      have he : ("...".toList : List Char).length = 3 := rfl
      rw [he]
      omega
    · rw [hm]
      have htk : ((firstParagraph (pySplit '\n' content)).take 157
          ++ "...".toList).take 157 = (firstParagraph (pySplit '\n' content)).take 157 :=
        List.take_left' (by rw [List.length_take]; omega)
      rw [htk]
      exact List.take_prefix 157 _
    · intro hc
      omega
  · have hm : (extractFallback content).1 = firstParagraph (pySplit '\n' content) := by
      unfold extractFallback
      rw [if_neg hlen]
    refine ⟨rfl, ?_, ?_, fun _ => hm, ?_⟩
    · rw [hm]
      omega
    · rw [hm]
      exact List.take_prefix 157 _
    · intro hc
      omega

theorem fallback_meta_spec_witness :
    (extract_meta_description "hello".toList).2 = "hello".toList ∧
      (extract_meta_description "hello".toList).1.length ≤ 160 :=
  ⟨(fallback_meta_spec "hello".toList (by decide)).1,
   (fallback_meta_spec "hello".toList (by decide)).2.1⟩

/-- Claim C10 counterexample: on the title consisting of a, a space and
b, the inline slug of `_save_blog_post` deletes the space while
`safe_filename` turns it into a hyphen, so the two are not equal. -/
theorem inline_slug_ne_safe_filename :
    saveSlug "a b".toList = "ab".toList ∧
      safe_filename "a b".toList 50 = "a-b".toList ∧
      saveSlug "a b".toList ≠ safe_filename "a b".toList 50 := by
  refine ⟨rfl, rfl, ?_⟩
  decide

theorem isPySpace_eq_false_of_class {c : Char}
    (h : ('a' ≤ c ∧ c ≤ 'z') ∨ ('A' ≤ c ∧ c ≤ 'Z') ∨ ('0' ≤ c ∧ c ≤ '9') ∨ c = '-') :
    isPySpace c = false := by
  cases hb : isPySpace c
  · rfl
  · exfalso
    unfold isPySpace at hb
    simp only [Bool.or_eq_true, beq_iff_eq] at hb
    rcases hb with ((((hq | hq) | hq) | hq) | hq) | hq <;> subst hq <;> revert h <;> decide

theorem ne_backslash_of_class {c : Char}
    (h : ('a' ≤ c ∧ c ≤ 'z') ∨ ('A' ≤ c ∧ c ≤ 'Z') ∨ ('0' ≤ c ∧ c ≤ '9') ∨ c = '-') :
    c ≠ '\\' := by
  intro hq
  subst hq
  revert h
  decide

theorem subBackslashSAux_eq_self {l : List Char} (h : ∀ c ∈ l, c ≠ '\\') :
    subBackslashSAux .normal l = l := by
  induction l with
  | nil => rfl
  | cons c cs ih =>
    have hc : ¬ ((c == '\\') = true) := by
      simp only [beq_iff_eq]
      exact h c (List.mem_cons_self c cs)
    rw [show subBackslashSAux .normal (c :: cs)
        = if c == '\\' then subBackslashSAux .pending cs
          else c :: subBackslashSAux .normal cs from rfl]
    rw [if_neg hc, ih (fun x hx => h x (List.mem_cons_of_mem c hx))]

theorem subWhitespaceAux_eq_self {l : List Char} (h : ∀ c ∈ l, isPySpace c = false) :
    subWhitespaceAux false l = l := by
  induction l with
  | nil => rfl
  | cons c cs ih =>
    have hc : ¬ (isPySpace c = true) := by
      rw [h c (List.mem_cons_self c cs)]
      exact Bool.false_ne_true
    rw [show subWhitespaceAux false (c :: cs)
        = if isPySpace c then
            (if false = true then subWhitespaceAux true cs
             else '-' :: subWhitespaceAux true cs)
          else c :: subWhitespaceAux false cs from rfl]
    rw [if_neg hc, ih (fun x hx => h x (List.mem_cons_of_mem c hx))]

theorem pyStripChar_eq_self {ch : Char} {l : List Char}
    (h1 : l.head? ≠ some ch) (h2 : l.getLast? ≠ some ch) : pyStripChar ch l = l := by
  unfold pyStripChar
  have hleft : l.dropWhile (fun c => c == ch) = l := by
    cases l with
    | nil => rfl
    | cons c cs =>
      have hcne : c ≠ ch := fun hq => h1 (by simp [hq])
      rw [List.dropWhile_cons]
      simp [hcne]
  rw [hleft]
  have hrev : l.reverse.dropWhile (fun c => c == ch) = l.reverse := by
    cases hr : l.reverse with
    | nil => rfl
    | cons c cs =>
      have hlast : l.getLast? = some c := by
        rw [← List.head?_reverse, hr]
        rfl
      have hcne : c ≠ ch := fun hq => h2 (by rw [hlast, hq])
      rw [List.dropWhile_cons]
      simp [hcne]
  rw [hrev, List.reverse_reverse]

/-- Claim C10 as amended: for a title made only of ASCII letters, digits
and hyphens whose lowercased 50-character truncation neither starts nor
ends with a hyphen, the inline slug of `_save_blog_post` agrees with
`safe_filename(title, 50)`. -/
theorem inline_slug_eq_safe_filename_alnum (title : List Char)
    (h1 : ∀ c ∈ title,
      ('a' ≤ c ∧ c ≤ 'z') ∨ ('A' ≤ c ∧ c ≤ 'Z') ∨ ('0' ≤ c ∧ c ≤ '9') ∨ c = '-')
    (h2 : ((title.map Char.toLower).take 50).head? ≠ some '-')
    (h3 : ((title.map Char.toLower).take 50).getLast? ≠ some '-') :
    saveSlug title = safe_filename title 50 := by
  have hkeep1 : title.filter saveSlugKeep = title := by
    apply List.filter_eq_self.mpr
    intro c hc
    unfold saveSlugKeep
    rw [decide_eq_true_eq]
    rcases h1 c hc with h | h | h | h
    · exact Or.inl h
    · exact Or.inr (Or.inl h)
    · exact Or.inr (Or.inr (Or.inl h))
    · exact Or.inr (Or.inr (Or.inr (Or.inr (Or.inr h))))
  have hkeep2 : title.filter safeFilenameKeep = title := by
    apply List.filter_eq_self.mpr
    intro c hc
    unfold safeFilenameKeep
    rw [decide_eq_true_eq]
    rcases h1 c hc with h | h | h | h
    · exact Or.inl h
    · exact Or.inr (Or.inl h)
    · exact Or.inr (Or.inr (Or.inl h))
    · exact Or.inr (Or.inr (Or.inr (Or.inr h)))
  have hstrip : pyStrip title = title :=
    pyStrip_eq_self (fun c hc => isPySpace_eq_false_of_class (h1 c hc))
  have hbs : subBackslashSAux .normal title = title :=
    subBackslashSAux_eq_self (fun c hc => ne_backslash_of_class (h1 c hc))
  have hws : subWhitespaceAux false title = title :=
    subWhitespaceAux_eq_self (fun c hc => isPySpace_eq_false_of_class (h1 c hc))
  unfold saveSlug safe_filename
  rw [hkeep1, hkeep2, hstrip, hbs, hws]
  exact (pyStripChar_eq_self h2 h3).symm

theorem inline_slug_eq_safe_filename_alnum_witness :
    saveSlug "Tech-2025".toList = safe_filename "Tech-2025".toList 50 :=
  inline_slug_eq_safe_filename_alnum "Tech-2025".toList
    (by decide) (by decide) (by decide)

theorem generate_all_spec (env : BatchEnv) (st : EngineState) :
    ∀ topics : List TopicData,
      (generate_all_blog_posts env st topics).outcomes
          = topics.map (processTopic env st) ∧
        (generate_all_blog_posts env st topics).generated
          = (topics.filter (fun t => resultOk (processTopic env st t))).length ∧
        (generate_all_blog_posts env st topics).published
          = (topics.filter (fun t => publishCounted env st t)).length := by
  intro topics
  induction topics with
  | nil => exact ⟨rfl, rfl, rfl⟩
  | cons t ts ih =>
    refine ⟨?_, ?_, ?_⟩
    · rw [show (generate_all_blog_posts env st (t :: ts)).outcomes
          = processTopic env st t :: (generate_all_blog_posts env st ts).outcomes from rfl]
      rw [ih.1, List.map_cons]
    · rw [show (generate_all_blog_posts env st (t :: ts)).generated
          = (if resultOk (processTopic env st t) then 1 else 0)
            + (generate_all_blog_posts env st ts).generated from rfl]
      rw [ih.2.1, List.filter_cons]
      by_cases hb : resultOk (processTopic env st t) = true
      · rw [if_pos hb, if_pos hb, List.length_cons]
        omega
      · rw [if_neg hb, if_neg hb]
        omega
    · rw [show (generate_all_blog_posts env st (t :: ts)).published
          = (if publishCounted env st t then 1 else 0)
            + (generate_all_blog_posts env st ts).published from rfl]
      rw [ih.2.2, List.filter_cons]
      by_cases hb : publishCounted env st t = true
      · rw [if_pos hb, if_pos hb, List.length_cons]
        omega
      · rw [if_neg hb, if_neg hb]
        omega

/-- Claim C4: in a batch run every topic is processed regardless of
earlier failures, and the final counters equal the number of successful
completions, not attempts; in the concrete scenario of three topics
where the second topic's generation call raises, exactly two successful
markdown writes are counted and the third topic is still processed. -/
theorem generate_all_counts_successes (env : BatchEnv) (st : EngineState)
    (t1 t2 t3 : TopicData) (e : List Char)
    (h2 : env.genResult t2 = Except.error e)
    (h1 : resultOk (processTopic env st t1) = true)
    (h3 : resultOk (processTopic env st t3) = true) :
    ((generate_all_blog_posts env st [t1, t2, t3]).generated = 2 ∧
      (generate_all_blog_posts env st [t1, t2, t3]).outcomes
        = [processTopic env st t1, processTopic env st t2, processTopic env st t3]) ∧
    ∀ topics : List TopicData,
      (generate_all_blog_posts env st topics).outcomes.length = topics.length ∧
        (generate_all_blog_posts env st topics).generated
          = (topics.filter (fun t => resultOk (processTopic env st t))).length ∧
        (generate_all_blog_posts env st topics).published
          = (topics.filter (fun t => publishCounted env st t)).length := by
  have hfail : resultOk (processTopic env st t2) = false := by
    unfold processTopic
    rw [h2]
    rfl
  constructor
  · constructor
    · rw [(generate_all_spec env st [t1, t2, t3]).2.1]
      simp [List.filter_cons, h1, h3, hfail]
    · rw [(generate_all_spec env st [t1, t2, t3]).1]
      rfl
  · intro topics
    refine ⟨?_, (generate_all_spec env st topics).2.1, (generate_all_spec env st topics).2.2⟩
    rw [(generate_all_spec env st topics).1, List.length_map]

theorem generate_all_counts_successes_witness :
    (generate_all_blog_posts envA stA [topicA1, topicA2, topicA3]).generated = 2 ∧
      (generate_all_blog_posts envA stA [topicA1, topicA2, topicA3]).outcomes
        = [processTopic envA stA topicA1, processTopic envA stA topicA2,
           processTopic envA stA topicA3] :=
  (generate_all_counts_successes envA stA topicA1 topicA2 topicA3
      ("AI generation failed: boom".toList) rfl rfl rfl).1

/-- Claim C5 counterexample: with a write failure for the first topic,
that attempted topic yields zero PostArtifacts and the batch still
processes the second topic and counts its single write — the run is not
aborted by the write failure, contradicting the claimed invariant. -/
theorem batch_write_failure_skips_not_aborts :
    artifactCount (processTopic envB stB topicA1) = 0 ∧
      resultOk (processTopic envB stB topicA2) = true ∧
      (generate_all_blog_posts envB stB [topicA1, topicA2]).outcomes.length = 2 ∧
      (generate_all_blog_posts envB stB [topicA1, topicA2]).generated = 1 := by
  refine ⟨rfl, rfl, rfl, rfl⟩

/-- Claim C5 as amended: in every batch run each attempted topic yields
at most one PostArtifact — exactly one precisely when no stage raised —
and at most one RemotePostReference; a generation or write failure skips
only that topic, and the batch still attempts every topic in order. -/
theorem batch_artifact_invariant (env : BatchEnv) (st : EngineState)
    (topics : List TopicData) :
    (generate_all_blog_posts env st topics).outcomes.length = topics.length ∧
      (generate_all_blog_posts env st topics).outcomes
        = topics.map (processTopic env st) ∧
      ∀ t : TopicData,
        artifactCount (processTopic env st t)
            = (if resultOk (processTopic env st t) then 1 else 0) ∧
          artifactCount (processTopic env st t) ≤ 1 ∧
          remoteRefCount (processTopic env st t) ≤ 1 := by
  refine ⟨?_, (generate_all_spec env st topics).1, ?_⟩
  · rw [(generate_all_spec env st topics).1, List.length_map]
  · intro t
    rcases hp : processTopic env st t with e | p
    · simp [artifactCount, resultOk, remoteRefCount]
    · rcases p with ⟨fn, id⟩
      cases id <;> simp [artifactCount, resultOk, remoteRefCount]

/-- Claim C6: if the connectivity probe returns false at initialization,
publishing is disabled for the remainder of the run; a subsequent
single-topic run with publishing requested still writes the markdown
file and the publish stage is skipped — the outcome carries no post id
whatever the create-post collaborator would have returned. -/
theorem probe_failure_disables_publishing (env : BatchEnv) (st : EngineState)
    (sheet : List TopicData) (row : List Char) (t : TopicData) (ai fn : List Char)
    (hinit : env.wpInit = Except.ok ())
    (hconn : env.testConnection = false)
    (hfind : sheet.find? (fun td => td.row_number == row) = some t)
    (hgen : env.genResult t = Except.ok ai)
    (hsave : env.saveResult t (extract_meta_description ai).2
        (extract_meta_description ai).1 = Except.ok fn) :
    (init_wordpress_client env st).wordpress_enabled = false ∧
      generate_blog_post env (init_wordpress_client env st) sheet row
        = some (Except.ok (fn, none)) := by
  have hst : init_wordpress_client env st = ⟨false, true, st.wp_status⟩ := by
    unfold init_wordpress_client
    rw [hinit]
    simp [hconn]
  have hpt : processTopic env (init_wordpress_client env st) t = Except.ok (fn, none) := by
    unfold processTopic
    simp only [hgen, hsave, hst]
    simp
  constructor
  · rw [hst]
  · unfold generate_blog_post
    rw [hfind]
    simp only [hpt]

theorem probe_failure_disables_publishing_witness :
    (init_wordpress_client envP stP).wordpress_enabled = false ∧
      generate_blog_post envP (init_wordpress_client envP stP) [topicP] "1".toList
        = some (Except.ok ("blog_posts/p.md".toList, none)) :=
  probe_failure_disables_publishing envP stP [topicP] "1".toList topicP
    sampleAi "blog_posts/p.md".toList rfl rfl rfl rfl rfl

end BlogAutomation
